import Mathlib

/-!
Shallow embedding of the supervisor core of `xinference/core/supervisor.py`
(class `SupervisorActor`), together with theorems settling the claims about
the launch / terminate / route / health-check behaviour of the control plane.

Python dictionaries are modelled as association lists (`List (κ × ν)`),
which preserves insertion order — the supervisor iterates its registries in
that order and the placement selector's tie-breaking depends on it.  Worker
actor handles are modelled by their network address (a `String`): the only
field the supervisor ever reads from a handle is `.address`, and every RPC
made through a handle is represented by an environment function and, where a
claim needs it, by an event appended to an RPC trace.
-/

namespace Supervisor

/-- Ordered-dictionary lookup (Python `d.get(k, None)` / `d[k]`). -/
def alookup {α β : Type} [DecidableEq α] : List (α × β) → α → Option β
  | [], _ => none
  | (k, v) :: rest, a => if k = a then some v else alookup rest a

/-- Ordered-dictionary update: `d[k] = v`.  An existing key keeps its
position (CPython dict semantics); a new key is appended. -/
def aupsert {α β : Type} [DecidableEq α] : List (α × β) → α → β → List (α × β)
  | [], a, b => [(a, b)]
  | (k, v) :: rest, a, b =>
    if k = a then (k, b) :: rest else (k, v) :: aupsert rest a b

/-- Ordered-dictionary deletion: `d.pop(k, None)` / `del d[k]`. -/
def aerase {α β : Type} [DecidableEq α] (m : List (α × β)) (a : α) :
    List (α × β) :=
  m.filter (fun p => decide (p.1 ≠ a))

/-- The tokens a worker-side `abort_request` can answer with
(`AbortRequestMessage` of `xinference/model/scheduler/core.py`, absent from
src/; the three member names are given by the spec). -/
inductive AbortToken
  | DONE
  | NOT_FOUND
  | NO_OP
deriving DecidableEq, Repr

/-- `LaunchStatus` of `xinference/core/status_guard.py` (absent from src/;
the four states are listed by the spec's `InstanceInfo` description). -/
inductive LaunchStatus
  | CREATING
  | READY
  | ERROR
  | TERMINATING
deriving DecidableEq, Repr

/-- Keys of `_replica_model_uid_to_worker`.  `rep u i` stands for the
synthetic replica uid built from model uid `u` and replica index `i`
(`build_replica_model_uid`), `rank0 u` for the string `u + "-rank0"` that
the collective bring-up inserts (supervisor.py line 1123). -/
inductive RepKey
  | rep (modelUid : String) (idx : Nat)
  | rank0 (modelUid : String)
deriving DecidableEq, Repr

/-- Modelled from the spec: `build_replica_model_uid(model_uid, i)` of
`xinference/core/utils.py` (absent from src/) produces the synthetic,
reversible replica uid combining the model uid and the replica index. -/
def build_replica_model_uid (uid : String) (i : Nat) : RepKey := .rep uid i

/-- Modelled from the spec: `iter_replica_model_uid(model_uid, N)` of
`xinference/core/utils.py` (absent from src/) yields the replica uids of
indices `0 .. N-1` in order. -/
def iter_replica_model_uid (uid : String) (n : Nat) : List RepKey :=
  (List.range n).map (build_replica_model_uid uid)

/-- Supervisor-level errors, by the Python exception class raised. -/
inductive SupErr
  | valueError (msg : String)
  | runtimeError (msg : String)
  | assertionError
  | workerError
deriving DecidableEq, Repr

/-- Modelled from the spec: `parse_replica_model_uid` of
`xinference/core/utils.py` (absent from src/) is the inverse of
`build_replica_model_uid`; on a string that is not of the replica-uid form
— in particular the synthetic `"-rank0"` uid — an inverse is undefined and
the helper fails (a `ValueError` from parsing). -/
def parse_replica_model_uid : RepKey → Except SupErr (String × Nat)
  | .rep u i => .ok (u, i)
  | .rank0 _ => .error (.valueError "cannot parse replica model uid")

/-- Modelled from the spec: `is_valid_model_uid` of
`xinference/core/utils.py` (absent from src/) accepts a uid iff
`0 < length ≤ 100` (the launch validation message in supervisor.py
line 1219 states exactly this bound; the spec's additional charset
restriction is not specified precisely and no claim depends on it). -/
def is_valid_model_uid (uid : String) : Bool :=
  0 < uid.length && uid.length ≤ 100

/-- The value side of `_replica_model_uid_to_worker`: a single worker
handle for a replicated launch, a tuple of handles for a sharded one. -/
inductive WorkerRefs
  | single (addr : String)
  | many (addrs : List String)
deriving DecidableEq, Repr

/-- `if not isinstance(worker_refs, list): worker_refs = [worker_refs]`. -/
def WorkerRefs.toList : WorkerRefs → List String
  | .single a => [a]
  | .many as => as

/-- `worker_ref[0] if isinstance(worker_ref, list) else worker_ref`
(an empty tuple would raise `IndexError`, hence `Option`). -/
def WorkerRefs.first : WorkerRefs → Option String
  | .single a => some a
  | .many [] => none
  | .many (a :: _) => some a

/-- `WorkerStatus` dataclass (supervisor.py lines 86-90).  The resource
snapshot payload is never inspected by the supervisor, so it is modelled by
an opaque numeric tag. -/
structure WorkerStatus where
  update_time : Nat
  failure_remaining_count : Int
  status : Nat
deriving DecidableEq, Repr

/-- `ReplicaInfo` dataclass (supervisor.py lines 93-99).  The source's
`scheduler` is `itertools.cycle(range(replica))`; per the spec's design
note it is modelled as the count of values already consumed, so the next
index yielded is `scheduler % replica`. -/
structure ReplicaInfo where
  replica : Nat
  scheduler : Nat
  replica_to_worker_refs : List (Nat × List String)
deriving DecidableEq, Repr

/-- The mutable state of `SupervisorActor` (supervisor.py lines 103-116)
plus the instance-status view held by the external Status Guard, which the
launch and terminate paths publish to. -/
structure SupState where
  worker_address_to_worker : List String
  worker_status : List (String × WorkerStatus)
  replica_model_uid_to_worker : List (RepKey × WorkerRefs)
  model_uid_to_replica_info : List (String × ReplicaInfo)
  collective_manager_mapping : List String
  block_tracker_mapping : List String
  instance_info_status : List (String × LaunchStatus)
deriving DecidableEq, Repr

/-- Worker RPCs issued by the supervisor, for claims about which workers
were contacted. -/
inductive RpcEvent
  | launchBuiltinModel (addr : String) (key : RepKey) (shard : Nat)
  | waitForLoad (addr : String) (key : RepKey)
  | terminateModelRpc (addr : String) (key : RepKey)
  | getModelRpc (addr : String) (key : RepKey)
  | abortRpc (addr : String) (key : RepKey)
  | cancelLaunchRpc (addr : String) (key : RepKey)
deriving DecidableEq, Repr

deriving instance DecidableEq for Except

/-- `_choose_worker`'s scan loop (supervisor.py lines 386-395): fold over
the candidate list keeping the first worker whose model count is a strict
minimum. -/
def chooseWorkerGo (counts : String → Nat) :
    List String → Option (Nat × String) → Option (Nat × String)
  | [], best => best
  | a :: rest, best =>
    match best with
    | none => chooseWorkerGo counts rest (some (counts a, a))
    | some (mc, mw) =>
      if counts a < mc then chooseWorkerGo counts rest (some (counts a, a))
      else chooseWorkerGo counts rest (some (mc, mw))

/-- Python truthiness of the `available_workers` argument:
`None` and `[]` are both falsy, so the whitelist filter is skipped. -/
def availTruthy (avail : Option (List String)) : Bool :=
  !(avail.getD []).isEmpty

/-- The candidate set `_choose_worker` actually scans: registered workers,
minus those skipped by `if available_workers and worker_addr not in
available_workers: continue`. -/
def chooseCandidates (st : SupState) (avail : Option (List String)) :
    List String :=
  st.worker_address_to_worker.filter
    (fun a => !(availTruthy avail && !((avail.getD []).contains a)))

/-- `_choose_worker` (supervisor.py lines 379-400).  `counts` stands for
the `worker.get_model_count()` RPC answers. -/
def choose_worker (st : SupState) (counts : String → Nat)
    (avail : Option (List String)) : Except SupErr String :=
  match chooseWorkerGo counts (chooseCandidates st avail) none with
  | some (_, w) => .ok w
  | none => .error (.runtimeError "No available worker found")

/-- `get_model` (supervisor.py lines 1570-1588).  Returns the replica index
consumed from the round-robin scheduler and the address of the worker (shard
0 for sharded replicas) whose `get_model` RPC would be forwarded, together
with the post-state: the scheduler advance at line 1577 happens before the
binding lookup, so it survives a failed lookup. -/
def get_model (st : SupState) (uid : String) :
    Except SupErr (Nat × String) × SupState :=
  match alookup st.model_uid_to_replica_info uid with
  | none =>
    (.error (.valueError ("Model not found in the model list, uid: " ++ uid)),
     st)
  | some info =>
    match info.replica with
    | 0 =>
      -- next() on cycle(range(0)) raises StopIteration
      (.error (.runtimeError "StopIteration"), st)
    | _ + 1 =>
      let idx := info.scheduler % info.replica
      let info' := { info with scheduler := info.scheduler + 1 }
      let st' := { st with
        model_uid_to_replica_info :=
          aupsert st.model_uid_to_replica_info uid info' }
      match alookup st'.replica_model_uid_to_worker
          (build_replica_model_uid uid idx) with
      | none =>
        (.error (.valueError "Model not found in the model list (replica)"),
         st')
      | some refs =>
        match refs.first with
        | none => (.error (.runtimeError "IndexError"), st')
        | some addr => (.ok (idx, addr), st')

/-- `n` successive `get_model(uid)` calls, collecting each call's result. -/
def getModelSeq : Nat → SupState → String →
    List (Except SupErr (Nat × String)) × SupState
  | 0, st, _ => ([], st)
  | n + 1, st, uid =>
    let (r, st') := get_model st uid
    let (rs, st'') := getModelSeq n st' uid
    (r :: rs, st'')

/-- `describe_model` (supervisor.py lines 1602-1620).  Resolves replica
slot 0 explicitly (the round-robin scheduler is not consumed) and returns
the worker address the `describe_model` RPC goes to. -/
def describe_model (st : SupState) (uid : String) : Except SupErr String :=
  match alookup st.model_uid_to_replica_info uid with
  | none =>
    .error (.valueError ("Model not found in the model list, uid: " ++ uid))
  | some _ =>
    match alookup st.replica_model_uid_to_worker
        (build_replica_model_uid uid 0) with
    | none => .error (.valueError "Model not found in the model list (replica)")
    | some refs =>
      match refs.first with
      | none => .error (.runtimeError "IndexError")
      | some addr => .ok addr

/-- `cancel_launch_builtin_model` (supervisor.py lines 1422-1443): fan a
`cancel_launch_model` RPC out to every worker recorded in
`replica_to_worker_refs`, tolerate their failures, then drop the
ReplicaInfo. -/
def cancel_launch_builtin_model (st : SupState) (uid : String) :
    Except SupErr SupState × List RpcEvent :=
  match alookup st.model_uid_to_replica_info uid with
  | none =>
    (.error (.runtimeError ("Model " ++ uid ++ " has not been launched yet")),
     [])
  | some info =>
    let evts :=
      (List.range info.replica).foldl (fun acc i =>
        acc ++ ((alookup info.replica_to_worker_refs i).getD []).map
          (fun a => RpcEvent.cancelLaunchRpc a (build_replica_model_uid uid i)))
        []
    (.ok { st with
        model_uid_to_replica_info :=
          aerase st.model_uid_to_replica_info uid },
     evts)

/-- `report_worker_status` (supervisor.py lines 1747-1760).  A new worker
is inserted with the full failure budget `threshold`; an existing worker's
entry gets a fresh `update_time` and snapshot, and its
`failure_remaining_count` is left as it was. -/
def report_worker_status (st : SupState) (now : Nat) (threshold : Int)
    (addr : String) (snapshot : Nat) : SupState :=
  match alookup st.worker_status addr with
  | none =>
    { st with
      worker_status := aupsert st.worker_status addr
        { update_time := now, failure_remaining_count := threshold,
          status := snapshot } }
  | some ws =>
    { st with
      worker_status := aupsert st.worker_status addr
        { ws with update_time := now, status := snapshot } }

/-- The fan-out loop of `abort_request` (supervisor.py lines 1686-1701):
walk the replica uids in index order, skip unbound ones, store every
answer into `res["msg"]`, and break on `DONE`.  `resp` stands for the
worker-side `model_ref.abort_request(...)` answers. -/
def abortWalk (st : SupState) (resp : RepKey → AbortToken) :
    List RepKey → AbortToken → Except SupErr AbortToken × List RpcEvent
  | [], res => (.ok res, [])
  | k :: ks, res =>
    match alookup st.replica_model_uid_to_worker k with
    | none => abortWalk st resp ks res
    | some refs =>
      match refs.first with
      | none => (.error (.runtimeError "IndexError"), [])
      | some addr =>
        let t := resp k
        let evts := [RpcEvent.getModelRpc addr k, RpcEvent.abortRpc addr k]
        if t = .DONE then (.ok t, evts)
        else
          let (r, evts') := abortWalk st resp ks t
          (r, evts ++ evts')

/-- `abort_request` (supervisor.py lines 1670-1702).  `res` starts as
`NO_OP`; a uid without ReplicaInfo returns it immediately, contacting no
worker. -/
def abort_request (st : SupState) (resp : RepKey → AbortToken)
    (uid : String) : Except SupErr AbortToken × List RpcEvent :=
  match alookup st.model_uid_to_replica_info uid with
  | none => (.ok .NO_OP, [])
  | some info =>
    abortWalk st resp (iter_replica_model_uid uid info.replica) .NO_OP

/-- The per-ref loop of `_terminate_one_model` (supervisor.py lines
1518-1523): a `None` entry (produced by a missing binding) raises before
any RPC; each real handle receives a `terminate_model` RPC whose outcome
`env` decides. -/
def termLoop (env : RepKey → String → Bool) (key : RepKey) :
    List (Option String) → Option SupErr × List RpcEvent
  | [] => (none, [])
  | none :: _ =>
    (some (.valueError "Model not found in the model list (replica)"), [])
  | some a :: rest =>
    let ev := RpcEvent.terminateModelRpc a key
    if env key a then
      let (r, evts) := termLoop env key rest
      (r, ev :: evts)
    else (some .workerError, [ev])

/-- `_terminate_one_model` (supervisor.py lines 1511-1524): fetch the
binding (`None` if absent, wrapped into a one-element list), terminate
every worker in it, and delete the binding only after all RPCs succeed. -/
def terminate_one_model (st : SupState) (env : RepKey → String → Bool)
    (key : RepKey) : Option SupErr × SupState × List RpcEvent :=
  let refs : List (Option String) :=
    match alookup st.replica_model_uid_to_worker key with
    | none => [none]
    | some rs => rs.toList.map some
  let (r, evts) := termLoop env key refs
  match r with
  | none =>
    (none,
     { st with replica_model_uid_to_worker :=
                 aerase st.replica_model_uid_to_worker key },
     evts)
  | some e => (some e, st, evts)

/-- The replica loop of `terminate_model` (supervisor.py lines 1530-1535):
each replica's failure is re-raised immediately unless
`suppress_exception`, in which case the loop moves on. -/
def terminateAllReplicas (env : RepKey → String → Bool) (suppress : Bool) :
    List RepKey → SupState → Option SupErr × SupState × List RpcEvent
  | [], st => (none, st, [])
  | k :: ks, st =>
    let (r, st', evts) := terminate_one_model st env k
    match r with
    | none =>
      let (e, st'', evts') := terminateAllReplicas env suppress ks st'
      (e, st'', evts ++ evts')
    | some e =>
      if suppress then
        let (e', st'', evts') := terminateAllReplicas env suppress ks st'
        (e', st'', evts ++ evts')
      else (some e, st', evts)

/-- Drop the `CollectiveManager` / `BlockTracker` handles for `uid`
(supervisor.py lines 1543-1568); destruction failures are swallowed, so
the only state effect is the two pops. -/
def clearAux (st : SupState) (uid : String) : SupState :=
  { st with
    collective_manager_mapping :=
      st.collective_manager_mapping.filter (fun u => decide (u ≠ uid)),
    block_tracker_mapping :=
      st.block_tracker_mapping.filter (fun u => decide (u ≠ uid)) }

/-- `terminate_model` (supervisor.py lines 1510-1568).  The initial
ReplicaInfo lookup raises `ValueError` unconditionally — the
`suppress_exception` flag guards only the per-replica loop.  The rank-0
collective entry, when present, is terminated outside any handler, so its
failure propagates even under `suppress_exception`. -/
def terminate_model (st : SupState) (env : RepKey → String → Bool)
    (uid : String) (suppress : Bool) :
    Option SupErr × SupState × List RpcEvent :=
  match alookup st.model_uid_to_replica_info uid with
  | none =>
    (some (.valueError ("Model not found in the model list, uid: " ++ uid)),
     st, [])
  | some info =>
    let (e, st1, evts) :=
      terminateAllReplicas env suppress
        (iter_replica_model_uid uid info.replica) st
    match e with
    | some err => (some err, st1, evts)
    | none =>
      let st2 := { st1 with
        model_uid_to_replica_info :=
          aerase st1.model_uid_to_replica_info uid }
      match alookup st2.replica_model_uid_to_worker (.rank0 uid) with
      | some _ =>
        let (r2, st3, evts2) := terminate_one_model st2 env (.rank0 uid)
        match r2 with
        | some err => (some err, st3, evts ++ evts2)
        | none => (none, clearAux st3 uid, evts ++ evts2)
      | none => (none, clearAux st2 uid, evts)

/-- Health-check tunables (`XINFERENCE_HEALTH_CHECK_TIMEOUT` and
`XINFERENCE_HEALTH_CHECK_FAILURE_THRESHOLD`; the sweep interval only sets
the sleep length between iterations, which the per-iteration model
abstracts away). -/
structure HealthConf where
  timeout : Nat
  threshold : Int
deriving DecidableEq, Repr

/-- Ageing of one worker's status (supervisor.py lines 1460-1469): stale
reports cost one unit of the failure budget, a fresh report restores the
whole budget. -/
def ageStatus (conf : HealthConf) (now : Nat) (ws : WorkerStatus) :
    WorkerStatus :=
  if now - ws.update_time > conf.timeout then
    { ws with failure_remaining_count := ws.failure_remaining_count - 1 }
  else { ws with failure_remaining_count := conf.threshold }

/-- The `dead_models` collection of `_check_dead_nodes` (supervisor.py
lines 1472-1480) and the matching scan of `remove_worker` (lines
1720-1732): one append per worker handle whose address equals `addr`.
(`remove_worker`'s `elif isinstance(model_address, list)` arm is dead code:
a handle's `.address` is always a string.) -/
def deadModelsFor (st : SupState) (addr : String) : List RepKey :=
  (st.replica_model_uid_to_worker.map (fun p =>
    (p.2.toList.filter (fun a => decide (a = addr))).map
      (fun _ => p.1))).flatten

/-- Purge one dead replica entry (supervisor.py lines 1486-1491 and
1734-1737): parse the key back to its model uid, drop that model's
ReplicaInfo and the binding itself. -/
def purgeOne (st : SupState) (k : RepKey) : Except SupErr SupState := do
  let (mu, _) ← parse_replica_model_uid k
  .ok { st with
    model_uid_to_replica_info := aerase st.model_uid_to_replica_info mu,
    replica_model_uid_to_worker :=
      aerase st.replica_model_uid_to_worker k }

def purgeAll : SupState → List RepKey → Except SupErr SupState
  | st, [] => .ok st
  | st, k :: ks => do purgeAll (← purgeOne st k) ks

/-- The in-place mutation of one worker's status object during the sweep
(supervisor.py lines 1460-1469). -/
def bumpStatus (conf : HealthConf) (now : Nat) (st : SupState)
    (addr : String) (ws : WorkerStatus) : SupState :=
  { st with worker_status :=
      aupsert st.worker_status addr (ageStatus conf now ws) }

/-- One worker's turn in the sweep (supervisor.py lines 1460-1501): age the
status in place; at zero budget purge every replica entry touching the
worker and mark the worker dead. -/
def sweepStep (conf : HealthConf) (now : Nat) :
    SupState × List String → String × WorkerStatus →
    Except SupErr (SupState × List String)
  | (st, dead), (addr, ws) =>
    let st' := bumpStatus conf now st addr ws
    if (ageStatus conf now ws).failure_remaining_count ≤ 0 then do
      let st'' ← purgeAll st' (deadModelsFor st' addr)
      .ok (st'', dead ++ [addr])
    else .ok (st', dead)

/-- The `for address, status in self._worker_status.items()` loop of the
sweep, one entry at a time. -/
def sweepFold (conf : HealthConf) (now : Nat) :
    List (String × WorkerStatus) → SupState × List String →
    Except SupErr (SupState × List String)
  | [], acc => .ok acc
  | e :: rest, acc => do sweepFold conf now rest (← sweepStep conf now acc e)

/-- The body of one `_check_dead_nodes` sweep (supervisor.py lines
1459-1505): process every worker in registration order, then drop the dead
ones from the status map and the worker registry. -/
def check_dead_nodes_body (conf : HealthConf) (now : Nat) (st : SupState) :
    Except SupErr SupState := do
  let (st', dead) ← sweepFold conf now st.worker_status (st, [])
  .ok { st' with
    worker_status := dead.foldl aerase st'.worker_status,
    worker_address_to_worker :=
      dead.foldl (fun l a => l.filter (fun x => decide (x ≠ a)))
        st'.worker_address_to_worker }

/-- Fate of one iteration of the `while True` monitor loop. -/
inductive SweepLoopOutcome
  | alive (st : SupState)
  | dead (e : SupErr)
deriving DecidableEq, Repr

/-- One iteration of `_check_dead_nodes`'s `while True: try: ... finally:
await asyncio.sleep(...)` (supervisor.py lines 1457-1507).  There is no
`except` clause: the `finally` runs the sleep and then a body exception
propagates out of the coroutine, terminating the monitor loop. -/
def check_dead_nodes_iter (conf : HealthConf) (now : Nat) (st : SupState) :
    SweepLoopOutcome :=
  match check_dead_nodes_body conf now st with
  | .ok st' => .alive st'
  | .error e => .dead e

/-- `remove_worker` (supervisor.py lines 1718-1745): purge every replica
entry bound to the address, then drop the address from the registry (a
warning, not an error, if it was absent). -/
def remove_worker (st : SupState) (addr : String) : Except SupErr SupState := do
  let st' ← purgeAll st (deadModelsFor st addr)
  .ok { st' with
    worker_address_to_worker :=
      st'.worker_address_to_worker.filter (fun x => decide (x ≠ addr)) }

/-- `request_limits is not None and request_limits < 0`. -/
def negativeRequestLimits (request_limits : Option Int) : Bool :=
  match request_limits with
  | some rl => decide (rl < 0)
  | none => false

/-- The validation / registration section shared by both launch protocols
(supervisor.py lines 1217-1242 in `launch_builtin_model`, mirrored at lines
1367-1394 in `_launch_builtin_sharded_model`): reject a malformed uid, a
negative `request_limits` and a duplicate uid — each check before any
ReplicaInfo mutation — then insert `ReplicaInfo(replica, cycle(range
(replica)))` and publish `InstanceInfo` with status CREATING. -/
def launch_builtin_model_validate (st : SupState) (uid : String)
    (replica : Nat) (request_limits : Option Int) :
    Except SupErr String × SupState :=
  if ¬ is_valid_model_uid uid then
    (.error (.valueError
       "The model UID is invalid. Please specify the model UID by 0 < length <= 100."),
     st)
  else if negativeRequestLimits request_limits then
    (.error (.valueError
       "The `request_limits` parameter must be greater or equal than 0."),
     st)
  else if (alookup st.model_uid_to_replica_info uid).isSome then
    (.error (.valueError ("Model is already in the model list, uid: " ++ uid)),
     st)
  else
    (.ok uid,
     { st with
       model_uid_to_replica_info :=
         aupsert st.model_uid_to_replica_info uid
           { replica := replica, scheduler := 0, replica_to_worker_refs := [] },
       instance_info_status :=
         aupsert st.instance_info_status uid .CREATING })

/-- `_gen_model_uid` (supervisor.py lines 913-919): the model name if free,
otherwise the name with a random 8-character suffix (`fresh`). -/
def gen_model_uid (st : SupState) (model_name : String) (fresh : String) :
    String :=
  if (alookup st.model_uid_to_replica_info model_name).isNone then model_name
  else model_name ++ "-" ++ fresh

/-- Answers of the external collaborators during a sharded launch: worker
registration probes, `get_model_count` per `_choose_worker` invocation
(indexed by invocation number, since counts change as models land),
launch / wait-for-load / terminate RPC outcomes, the `driver_info` a shard-0
launch returns, and the random uid suffix. -/
structure ShardedEnv where
  registration : String → Bool
  counts : Nat → String → Nat
  launchOk : RepKey → Nat → String → Bool
  driverInfo : RepKey → String → Option String
  waitOk : RepKey → String → Bool
  terminateOk : RepKey → String → Bool
  freshSuffix : String

/-- Candidate workers of a sharded launch (supervisor.py lines 1273-1296):
the workers advertising a registration for the model, all workers when none
does, or the user-pinned list. -/
def shardedAvailableWorkers (st : SupState) (env : ShardedEnv)
    (worker_ip : Option (List String)) : List String :=
  match worker_ip with
  | none =>
    let regs := st.worker_address_to_worker.filter env.registration
    if regs.isEmpty then st.worker_address_to_worker else regs
  | some ips => ips

/-- `self._model_uid_to_replica_info[model_uid].replica_to_worker_refs
[_idx].append(worker_ref)` (supervisor.py lines 1316-1318); the ReplicaInfo
is always present here, having been inserted before `_launch_model` runs. -/
def appendWorkerRef (st : SupState) (uid : String) (idx : Nat)
    (addr : String) : SupState :=
  match alookup st.model_uid_to_replica_info uid with
  | none => st
  | some info =>
    let info' := { info with
      replica_to_worker_refs :=
        aupsert info.replica_to_worker_refs idx
          ((alookup info.replica_to_worker_refs idx).getD [] ++ [addr]) }
    { st with
      model_uid_to_replica_info :=
        aupsert st.model_uid_to_replica_info uid info' }

/-- Threaded run data of a launch: supervisor state, worker-RPC trace, and
the number of `_choose_worker` invocations made so far. -/
structure RunS where
  st : SupState
  trace : List RpcEvent
  calls : Nat

/-- The shard loop of the sharded launch (supervisor.py lines 1314-1348):
per shard, pick a worker, record it in `replica_to_worker_refs` *before*
the launch RPC, assert `driver_info` only for shards beyond 1 (the source's
off-by-one leniency), launch, and keep shard 0's `driver_info`. -/
def launchShardLoop (env : ShardedEnv) (avail : List String) (uid : String)
    (idx : Nat) (rkey : RepKey) :
    List Nat → Option String → List String → RunS →
    Except SupErr (List String) × RunS
  | [], _, refs, r => (.ok refs, r)
  | s :: rest, driver, refs, r =>
    match choose_worker r.st (env.counts r.calls) (some avail) with
    | .error e => (.error e, { r with calls := r.calls + 1 })
    | .ok w =>
      let r := { r with calls := r.calls + 1,
                        st := appendWorkerRef r.st uid idx w }
      if s > 1 && driver.isNone then (.error .assertionError, r)
      else
        let r := { r with
          trace := r.trace ++ [RpcEvent.launchBuiltinModel w rkey s] }
        if env.launchOk rkey s w then
          let driver' := if s = 0 then env.driverInfo rkey w else driver
          launchShardLoop env avail uid idx rkey rest driver' (refs ++ [w]) r
        else (.error .workerError, r)

/-- `wait_for_load` on every shard worker in order (supervisor.py lines
1354-1355). -/
def waitLoop (env : ShardedEnv) (rkey : RepKey) :
    List String → RunS → Except SupErr Unit × RunS
  | [], r => (.ok (), r)
  | w :: ws, r =>
    let r := { r with trace := r.trace ++ [RpcEvent.waitForLoad w rkey] }
    if env.waitOk rkey w then waitLoop env rkey ws r
    else (.error .workerError, r)

/-- The replica loop of the sharded launch (supervisor.py lines 1305-1355):
launch all shards of a replica, only then record the
`replica_uid → [shard workers]` binding, then wait for every shard. -/
def launchReplicaLoop (env : ShardedEnv) (avail : List String) (uid : String)
    (nWorker : Nat) :
    List (Nat × RepKey) → RunS → Except SupErr Unit × RunS
  | [], r => (.ok (), r)
  | (idx, rkey) :: rest, r =>
    match launchShardLoop env avail uid idx rkey (List.range nWorker)
        none [] r with
    | (.error e, r) => (.error e, r)
    | (.ok refs, r) =>
      let r := { r with
        st := { r.st with
          replica_model_uid_to_worker :=
            aupsert r.st.replica_model_uid_to_worker rkey (.many refs) } }
      match waitLoop env rkey refs r with
      | (.error e, r) => (.error e, r)
      | (.ok _, r) => launchReplicaLoop env avail uid nWorker rest r

/-- `_launch_builtin_sharded_model` with `wait_ready=True` (supervisor.py
lines 1251-1401): candidate computation, uid synthesis, validation and
ReplicaInfo insertion, then `_launch_model`.  The `n_worker` bound check
sits *outside* the protocol's `try`, so its failure performs no rollback;
an exception inside the loop triggers `terminate_model(...,
suppress_exception=True)` and an ERROR status before re-raising. -/
def launch_builtin_sharded_model (st : SupState) (env : ShardedEnv)
    (model_uid : Option String) (model_name : String) (replica : Nat)
    (n_worker : Nat) (request_limits : Option Int)
    (worker_ip : Option (List String)) :
    Except SupErr String × SupState × List RpcEvent :=
  let avail := shardedAvailableWorkers st env worker_ip
  let uid :=
    match model_uid with
    | some u => u
    | none => gen_model_uid st model_name env.freshSuffix
  match launch_builtin_model_validate st uid replica request_limits with
  | (.error e, st') => (.error e, st', [])
  | (.ok _, st') =>
    if n_worker > avail.length then
      (.error (.valueError
         "n_worker cannot be larger than the number of available workers."),
       st', [])
    else
      match launchReplicaLoop env avail uid n_worker
          (iter_replica_model_uid uid replica).enum
          { st := st', trace := [], calls := 0 } with
      | (.ok _, r) => (.ok uid, r.st, r.trace)
      | (.error e, r) =>
        let (tres, st2, tevts) := terminate_model r.st env.terminateOk uid true
        match tres with
        | some e' => (.error e', st2, r.trace ++ tevts)
        | none =>
          (.error e,
           { st2 with
             instance_info_status :=
               aupsert st2.instance_info_status uid .ERROR },
           r.trace ++ tevts)


/-! ### Dictionary lemmas -/

theorem alookup_aupsert {α β : Type} [DecidableEq α] (m : List (α × β))
    (k a : α) (v : β) :
    alookup (aupsert m k v) a = if k = a then some v else alookup m a := by
  induction m with
  | nil => simp [aupsert, alookup]
  | cons p rest ih =>
    obtain ⟨pk, pv⟩ := p
    simp only [aupsert]
    by_cases h : pk = k
    · subst h
      simp only [if_pos rfl, alookup]
      by_cases h2 : pk = a <;> simp [alookup, h2]
    · simp only [if_neg h, alookup]
      by_cases h2 : pk = a
      · have hka : ¬ k = a := fun hh => h (h2.trans hh.symm)
        simp [h2, hka]
      · simp [h2, ih]

theorem alookup_aerase {α β : Type} [DecidableEq α] (m : List (α × β))
    (k a : α) :
    alookup (aerase m k) a = if k = a then none else alookup m a := by
  induction m with
  | nil => simp [aerase, alookup]
  | cons p rest ih =>
    obtain ⟨pk, pv⟩ := p
    by_cases h : pk = k
    · subst h
      have h1 : aerase ((pk, pv) :: rest) pk = aerase rest pk := by
        simp [aerase, List.filter_cons]
      rw [h1, ih]
      by_cases h2 : pk = a <;> simp [alookup, h2]
    · have h1 : aerase ((pk, pv) :: rest) k = (pk, pv) :: aerase rest k := by
        simp [aerase, List.filter_cons, h]
      rw [h1]
      by_cases h2 : pk = a
      · have hka : ¬ k = a := fun hh => h (h2.trans hh.symm)
        simp [alookup, h2, hka]
      · simp [alookup, h2, ih]

theorem mem_aerase {α β : Type} [DecidableEq α] (m : List (α × β))
    (k : α) (p : α × β) :
    p ∈ aerase m k ↔ p ∈ m ∧ p.1 ≠ k := by
  simp [aerase, List.mem_filter]

theorem mem_foldl_aerase {α β : Type} [DecidableEq α] (ks : List α) :
    ∀ (m : List (α × β)) (p : α × β),
      p ∈ ks.foldl aerase m ↔ p ∈ m ∧ p.1 ∉ ks := by
  induction ks with
  | nil => simp
  | cons k rest ih =>
    intro m p
    simp only [List.foldl_cons, ih, mem_aerase, List.mem_cons]
    constructor
    · rintro ⟨⟨hm, hne⟩, hrest⟩
      exact ⟨hm, by rintro (h | h) <;> [exact hne h; exact hrest h]⟩
    · rintro ⟨hm, hnot⟩
      exact ⟨⟨hm, fun h => hnot (Or.inl h)⟩, fun h => hnot (Or.inr h)⟩

theorem alookup_foldl_aerase {α β : Type} [DecidableEq α] (ks : List α) :
    ∀ (m : List (α × β)) (a : α),
      alookup (ks.foldl aerase m) a =
        if a ∈ ks then none else alookup m a := by
  induction ks with
  | nil => simp
  | cons k rest ih =>
    intro m a
    simp only [List.foldl_cons, ih, alookup_aerase, List.mem_cons]
    by_cases h1 : a ∈ rest
    · simp [h1]
    · by_cases h2 : k = a
      · simp [h1, h2]
      · have h3 : ¬ a = k := fun hh => h2 hh.symm
        simp [h1, h2, h3]

/-! ### C9 — placement selection -/

/-- Refinement target for C9, written from the spec's words: over the
candidate set pick the worker of minimum model count, breaking ties in
favour of the earliest candidate. -/
def firstMinWorker (counts : String → Nat) : List String → Option String
  | [] => none
  | a :: rest =>
    match firstMinWorker counts rest with
    | none => some a
    | some b => if counts b < counts a then some b else some a

theorem firstMinWorker_eq_none (counts : String → Nat) (l : List String) :
    firstMinWorker counts l = none ↔ l = [] := by
  cases l with
  | nil => simp [firstMinWorker]
  | cons a rest =>
    simp only [firstMinWorker]
    cases firstMinWorker counts rest with
    | none => simp
    | some b => by_cases h : counts b < counts a <;> simp [h]

theorem chooseWorkerGo_acc (counts : String → Nat) (l : List String) :
    ∀ (c : Nat) (w : String),
      chooseWorkerGo counts l (some (c, w)) =
        match firstMinWorker counts l with
        | none => some (c, w)
        | some b =>
          if counts b < c then some (counts b, b) else some (c, w) := by
  induction l with
  | nil => intro c w; rfl
  | cons a rest ih =>
    intro c w
    simp only [chooseWorkerGo, ih, firstMinWorker]
    cases hf : firstMinWorker counts rest with
    | none => by_cases h : counts a < c <;> simp [h]
    | some b =>
      by_cases h : counts a < c <;> by_cases h2 : counts b < counts a
      · simp [h, h2, Nat.lt_trans h2 h]
      · simp [h, h2]
      · simp [h, h2]
      · have h3 : ¬ counts b < c := by omega
        simp [h, h2, h3]

theorem chooseWorkerGo_none (counts : String → Nat) (l : List String) :
    chooseWorkerGo counts l none =
      (firstMinWorker counts l).map (fun b => (counts b, b)) := by
  cases l with
  | nil => rfl
  | cons a rest =>
    simp only [chooseWorkerGo, firstMinWorker, chooseWorkerGo_acc]
    cases hf : firstMinWorker counts rest with
    | none => rfl
    | some b => by_cases h : counts b < counts a <;> simp [h]

theorem firstMinWorker_split (counts : String → Nat) :
    ∀ (l : List String) (w : String), firstMinWorker counts l = some w →
      ∃ l1 l2, l = l1 ++ w :: l2 ∧ (∀ v ∈ l1, counts w < counts v) ∧
        (∀ v ∈ l2, counts w ≤ counts v) := by
  intro l
  induction l with
  | nil => intro w h; simp [firstMinWorker] at h
  | cons a rest ih =>
    intro w h
    have hstep : firstMinWorker counts (a :: rest) =
        match firstMinWorker counts rest with
        | none => some a
        | some b => if counts b < counts a then some b else some a := rfl
    rw [hstep] at h
    cases hf : firstMinWorker counts rest with
    | none =>
      rw [hf] at h
      obtain rfl : rest = [] := (firstMinWorker_eq_none counts rest).1 hf
      obtain rfl : a = w := by exact Option.some.inj h
      exact ⟨[], [], rfl, by simp, by simp⟩
    | some b =>
      rw [hf] at h
      change (if counts b < counts a then some b else some a) = some w at h
      obtain ⟨r1, r2, hsplit, hlt, hle⟩ := ih b hf
      by_cases h2 : counts b < counts a
      · rw [if_pos h2] at h
        obtain rfl : b = w := Option.some.inj h
        refine ⟨a :: r1, r2, by simp [hsplit], ?_, hle⟩
        intro v hv
        rcases List.mem_cons.1 hv with rfl | hv
        · exact h2
        · exact hlt v hv
      · rw [if_neg h2] at h
        obtain rfl : a = w := Option.some.inj h
        refine ⟨[], rest, rfl, by simp, ?_⟩
        intro v hv
        have hmem : ∀ x ∈ rest, counts b ≤ counts x := by
          intro x hx
          rw [hsplit] at hx
          rcases List.mem_append.1 hx with hx | hx
          · exact Nat.le_of_lt (hlt x hx)
          · rcases List.mem_cons.1 hx with rfl | hx
            · exact Nat.le_refl _
            · exact hle x hx
        exact Nat.le_trans (by omega) (hmem v hv)

/-- C9: `_choose_worker` returns the candidate whose reported model count
is minimal, ties broken by registry iteration order (every earlier
candidate has a strictly larger count, every later one at least as large);
it fails with the no-worker error exactly on an empty candidate set; and an
empty (non-None) whitelist behaves as no whitelist at all. -/
theorem choose_worker_contract (st : SupState) (counts : String → Nat)
    (avail : Option (List String)) :
    (∀ w, choose_worker st counts avail = .ok w →
      ∃ l1 l2, chooseCandidates st avail = l1 ++ w :: l2 ∧
        (∀ v ∈ l1, counts w < counts v) ∧ (∀ v ∈ l2, counts w ≤ counts v)) ∧
    (chooseCandidates st avail = [] →
      choose_worker st counts avail =
        .error (.runtimeError "No available worker found")) ∧
    choose_worker st counts (some []) = choose_worker st counts none := by
  refine ⟨?_, ?_, ?_⟩
  · intro w hw
    unfold choose_worker at hw
    rw [chooseWorkerGo_none] at hw
    cases hf : firstMinWorker counts (chooseCandidates st avail) with
    | none => rw [hf] at hw; simp at hw
    | some b =>
      rw [hf] at hw
      change Except.ok b = Except.ok w at hw
      obtain rfl : b = w := Except.ok.inj hw
      exact firstMinWorker_split counts _ b hf
  · intro h
    unfold choose_worker
    rw [h]
    rfl
  · rfl

/-- Concrete two-worker state for the C9 witness. -/
def stPlace : SupState :=
  { worker_address_to_worker := ["w1", "w2"]
    worker_status := []
    replica_model_uid_to_worker := []
    model_uid_to_replica_info := []
    collective_manager_mapping := []
    block_tracker_mapping := []
    instance_info_status := [] }

def countsPlace : String → Nat := fun a => if a = "w2" then 1 else 2

/-- Witness for C9: the contract applied at a concrete two-worker state
where the second worker has the fewer models. -/
theorem choose_worker_contract_witness :
    ∃ l1 l2, chooseCandidates stPlace none = l1 ++ "w2" :: l2 ∧
      (∀ v ∈ l1, countsPlace "w2" < countsPlace v) ∧
      (∀ v ∈ l2, countsPlace "w2" ≤ countsPlace v) :=
  (choose_worker_contract stPlace countsPlace none).1 "w2" (by decide)

/-! ### C6 — round-robin routing -/

/-- The replica index a `get_model` call resolved to, if it succeeded. -/
def resIdx : Except SupErr (Nat × String) → Option Nat
  | .ok (i, _) => some i
  | .error _ => none

theorem get_model_step (st : SupState) (uid : String) (N c : Nat)
    (refs : List (Nat × List String)) (a : String)
    (h1 : alookup st.model_uid_to_replica_info uid = some ⟨N, c, refs⟩)
    (h2 : 0 < N)
    (h3 : (alookup st.replica_model_uid_to_worker
        (build_replica_model_uid uid (c % N))).bind WorkerRefs.first =
      some a) :
    get_model st uid =
      (.ok (c % N, a),
       { st with model_uid_to_replica_info :=
           aupsert st.model_uid_to_replica_info uid ⟨N, c + 1, refs⟩ }) := by
  obtain ⟨n, rfl⟩ : ∃ n, N = n + 1 := ⟨N - 1, by omega⟩
  unfold get_model
  rw [h1]
  dsimp only
  cases hb : alookup st.replica_model_uid_to_worker
      (build_replica_model_uid uid (c % (n + 1))) with
  | none => rw [hb] at h3; simp at h3
  | some rf =>
    rw [hb] at h3
    change rf.first = some a at h3
    dsimp only
    rw [h3]

theorem getModelSeq_indices (uid : String) :
    ∀ (k : Nat) (st : SupState) (N c : Nat)
      (refs : List (Nat × List String)),
      alookup st.model_uid_to_replica_info uid = some ⟨N, c, refs⟩ →
      0 < N →
      (∀ i < N, ((alookup st.replica_model_uid_to_worker
          (build_replica_model_uid uid i)).bind WorkerRefs.first).isSome) →
      ((getModelSeq k st uid).1).map resIdx =
        (List.range k).map (fun i => some ((c + i) % N)) := by
  intro k
  induction k with
  | zero => intros; simp [getModelSeq]
  | succ n ih =>
    intro st N c refs h1 h2 h3
    have hidx : c % N < N := Nat.mod_lt _ h2
    obtain ⟨a, ha⟩ := Option.isSome_iff_exists.1 (h3 (c % N) hidx)
    have hstep := get_model_step st uid N c refs a h1 h2 ha
    have h1' : alookup (aupsert st.model_uid_to_replica_info uid
        (⟨N, c + 1, refs⟩ : ReplicaInfo)) uid =
        some ⟨N, c + 1, refs⟩ := by
      rw [alookup_aupsert]
      simp
    have hrec := ih
      { st with model_uid_to_replica_info :=
          aupsert st.model_uid_to_replica_info uid ⟨N, c + 1, refs⟩ }
      N (c + 1) refs h1' h2 h3
    simp only [getModelSeq, hstep, List.map_cons, hrec, resIdx]
    rw [List.range_succ_eq_map]
    simp only [List.map_cons, List.map_map, Nat.add_zero]
    congr 1
    apply List.map_congr_left
    intro i _
    simp only [Function.comp]
    congr 2
    omega

theorem roundRobinMem (N c : Nat) (h : 0 < N) :
    ∀ j < N, j ∈ (List.range N).map (fun i => (c + i) % N) := by
  have hnodup : ((List.range N).map (fun i => (c + i) % N)).Nodup := by
    refine List.Nodup.map_on ?_ (List.nodup_range N)
    intro x hx y hy hxy
    rw [List.mem_range] at hx hy
    have hmod : x ≡ y [MOD N] := Nat.ModEq.add_left_cancel' c hxy
    have hmod' : x % N = y % N := hmod
    rwa [Nat.mod_eq_of_lt hx, Nat.mod_eq_of_lt hy] at hmod'
  have hsub : ((List.range N).map (fun i => (c + i) % N)).toFinset ⊆
      Finset.range N := by
    intro x hx
    rw [List.mem_toFinset, List.mem_map] at hx
    obtain ⟨i, _, rfl⟩ := hx
    exact Finset.mem_range.2 (Nat.mod_lt _ h)
  have hlen : ((List.range N).map (fun i => (c + i) % N)).toFinset.card = N := by
    rw [List.toFinset_card_of_nodup hnodup]
    simp
  have heq : ((List.range N).map (fun i => (c + i) % N)).toFinset =
      Finset.range N := by
    apply Finset.eq_of_subset_of_card_le hsub
    rw [hlen]
    simp
  intro j hj
  have : j ∈ Finset.range N := Finset.mem_range.2 hj
  rw [← heq, List.mem_toFinset] at this
  exact this

/-- Concrete routing state for C6: model "m" with 4 replicas all bound to
worker "A", scheduler freshly initialised by launch. -/
def stRR4 : SupState :=
  { worker_address_to_worker := ["A"]
    worker_status := []
    replica_model_uid_to_worker :=
      [(.rep "m" 0, .single "A"), (.rep "m" 1, .single "A"),
       (.rep "m" 2, .single "A"), (.rep "m" 3, .single "A")]
    model_uid_to_replica_info :=
      [("m", { replica := 4, scheduler := 0, replica_to_worker_refs := [] })]
    collective_manager_mapping := []
    block_tracker_mapping := []
    instance_info_status := [] }

/-- C6: with every replica binding present, `N` successive `get_model`
calls consume the round-robin cursor in index order starting at the cursor
position — call `i` resolves replica `(c+i) % N` — visiting every replica
index; and on the concrete 4-replica model, 12 calls resolve each of the 4
indices exactly 3 times. -/
theorem get_model_round_robin (st : SupState) (uid : String) (N c : Nat)
    (refs : List (Nat × List String))
    (h1 : alookup st.model_uid_to_replica_info uid = some ⟨N, c, refs⟩)
    (h2 : 0 < N)
    (h3 : ∀ i < N, ((alookup st.replica_model_uid_to_worker
        (build_replica_model_uid uid i)).bind WorkerRefs.first).isSome) :
    ((getModelSeq N st uid).1).map resIdx =
      (List.range N).map (fun i => some ((c + i) % N)) ∧
    (∀ j < N, some j ∈ ((getModelSeq N st uid).1).map resIdx) ∧
    (∀ j < 4,
      (((getModelSeq 12 stRR4 "m").1).map resIdx).count (some j) = 3) := by
  have hmain := getModelSeq_indices uid N st N c refs h1 h2 h3
  refine ⟨hmain, ?_, by decide⟩
  intro j hj
  rw [hmain, List.mem_map]
  obtain ⟨i, hi, hval⟩ := List.mem_map.1 (roundRobinMem N c h2 j hj)
  exact ⟨i, hi, congrArg some hval⟩

/-- Witness for C6: the round-robin law applied at the concrete 4-replica
state. -/
theorem get_model_round_robin_witness :
    ((getModelSeq 4 stRR4 "m").1).map resIdx =
      (List.range 4).map (fun i => some ((0 + i) % 4)) :=
  (get_model_round_robin stRR4 "m" 4 0 [] (by decide) (by decide)
    (by decide)).1

/-! ### C7 — status ingest -/

/-- Concrete state for C7: worker "A" holds a partially spent failure
budget (1 of the threshold 3). -/
def stIngest : SupState :=
  { worker_address_to_worker := ["A"]
    worker_status :=
      [("A", { update_time := 0, failure_remaining_count := 1, status := 0 })]
    replica_model_uid_to_worker := []
    model_uid_to_replica_info := []
    collective_manager_mapping := []
    block_tracker_mapping := []
    instance_info_status := [] }

/-- C7 counterexample: a `report_worker_status` from a worker already in
the status map refreshes `update_time` and the snapshot but leaves
`failure_remaining_count` at 1 — it is *not* reset to the threshold 3 by
the ingest path, contrary to the claim. -/
theorem report_worker_status_no_reset :
    alookup (report_worker_status stIngest 50 3 "A" 7).worker_status "A" =
      some { update_time := 50, failure_remaining_count := 1, status := 7 } ∧
    (1 : Int) ≠ 3 := by decide

/-- C7 as amended: `report_worker_status` upserts the snapshot and
refreshes `update_time`; the failure budget is set to the threshold only
when the worker is new — an existing worker's `failure_remaining_count` is
left unchanged (the health sweep, not the ingest path, restores the budget
once it sees the fresh timestamp). -/
theorem report_worker_status_upsert (st : SupState) (now : Nat)
    (threshold : Int) (addr : String) (snapshot : Nat) :
    (∀ ws, alookup st.worker_status addr = some ws →
      alookup
          (report_worker_status st now threshold addr snapshot).worker_status
          addr =
        some { update_time := now,
               failure_remaining_count := ws.failure_remaining_count,
               status := snapshot }) ∧
    (alookup st.worker_status addr = none →
      alookup
          (report_worker_status st now threshold addr snapshot).worker_status
          addr =
        some { update_time := now, failure_remaining_count := threshold,
               status := snapshot }) := by
  constructor
  · intro ws hws
    simp [report_worker_status, hws, alookup_aupsert]
  · intro hnone
    simp [report_worker_status, hnone, alookup_aupsert]

/-- Witness for C7 (amended): applying the upsert law at the concrete
state. -/
theorem report_worker_status_upsert_witness :
    alookup (report_worker_status stIngest 50 3 "A" 7).worker_status "A" =
      some { update_time := 50, failure_remaining_count := 1, status := 7 } :=
  (report_worker_status_upsert stIngest 50 3 "A" 7).1
    { update_time := 0, failure_remaining_count := 1, status := 0 } (by decide)

/-! ### C1 — abort fan-out result -/

/-- The tokens actually received during the abort walk: the worker answers
of the replicas that have a binding, in index order. -/
def abortAnswers (st : SupState) (resp : RepKey → AbortToken)
    (ks : List RepKey) : List AbortToken :=
  ks.filterMap (fun k =>
    match alookup st.replica_model_uid_to_worker k with
    | none => none
    | some _ => some (resp k))

/-- The claim's stated result rule, written from the spec's words: the
first `DONE` wins; otherwise the last non-`NO_OP` token seen; otherwise
`NO_OP`. -/
def abortClaimResult (answers : List AbortToken) : AbortToken :=
  if .DONE ∈ answers then .DONE
  else ((answers.filter (fun t => decide (t ≠ .NO_OP))).getLast?).getD .NO_OP

theorem getLastD_cons {α : Type} (t : α) (tail : List α) (res : α) :
    ((t :: tail).getLast?).getD res = (tail.getLast?).getD t := by
  cases tail with
  | nil => rfl
  | cons a l =>
    rw [List.getLast?_cons_cons]
    have hs : ((a :: l).getLast?).isSome := by
      rw [List.getLast?_isSome]
      simp
    obtain ⟨v, hv⟩ := Option.isSome_iff_exists.1 hs
    rw [hv]
    rfl

theorem abortWalk_result (st : SupState) (resp : RepKey → AbortToken) :
    ∀ (ks : List RepKey),
      (∀ k ∈ ks, Option.all (fun refs => refs.first.isSome)
        (alookup st.replica_model_uid_to_worker k) = true) →
      ∀ (res : AbortToken),
        (abortWalk st resp ks res).1 =
          .ok (if .DONE ∈ abortAnswers st resp ks then .DONE
               else ((abortAnswers st resp ks).getLast?).getD res) := by
  intro ks
  induction ks with
  | nil => intro _ res; simp [abortWalk, abortAnswers]
  | cons k rest ih =>
    intro h2 res
    have ihr := ih (fun x hx => h2 x (List.mem_cons_of_mem _ hx))
    simp only [abortWalk, abortAnswers, List.filterMap_cons]
    cases hb : alookup st.replica_model_uid_to_worker k with
    | none => exact ihr res
    | some refs =>
      have hall := h2 k (List.mem_cons_self _ _)
      rw [hb] at hall
      obtain ⟨addr, haddr⟩ := Option.isSome_iff_exists.1 hall
      dsimp only
      rw [haddr]
      by_cases ht : resp k = .DONE
      · simp [ht]
      · simp only [if_neg ht]
        have := ihr (resp k)
        simp only [abortAnswers] at this
        rw [this]
        have hmem : (AbortToken.DONE ∈ resp k ::
            rest.filterMap (fun k =>
              match alookup st.replica_model_uid_to_worker k with
              | none => none
              | some _ => some (resp k))) ↔
            AbortToken.DONE ∈ rest.filterMap (fun k =>
              match alookup st.replica_model_uid_to_worker k with
              | none => none
              | some _ => some (resp k)) := by
          constructor
          · intro h
            rcases List.mem_cons.1 h with h | h
            · exact absurd h.symm ht
            · exact h
          · exact List.mem_cons_of_mem _
        rw [if_congr hmem rfl rfl]
        by_cases hd : AbortToken.DONE ∈ rest.filterMap (fun k =>
            match alookup st.replica_model_uid_to_worker k with
            | none => none
            | some _ => some (resp k))
        · simp [hd]
        · simp only [if_neg hd]
          rw [getLastD_cons]

/-- Concrete abort state for C1: model "z" with two replicas, both bound
to worker "A". -/
def stAbort : SupState :=
  { worker_address_to_worker := ["A"]
    worker_status := []
    replica_model_uid_to_worker :=
      [(.rep "z" 0, .single "A"), (.rep "z" 1, .single "A")]
    model_uid_to_replica_info :=
      [("z", { replica := 2, scheduler := 0, replica_to_worker_refs := [] })]
    collective_manager_mapping := []
    block_tracker_mapping := []
    instance_info_status := [] }

/-- Worker answers for the C1 counterexample: replica 0 says `NOT_FOUND`,
replica 1 says `NO_OP`. -/
def respAbort : RepKey → AbortToken
  | .rep _ 0 => .NOT_FOUND
  | _ => .NO_OP

/-- C1 counterexample: with answers `NOT_FOUND, NO_OP` the router returns
`NO_OP` — the source stores *every* answer into `res["msg"]`, `NO_OP`
included — while the claim's rule ("the last non-`NO_OP` token it saw")
demands `NOT_FOUND`. -/
theorem abort_request_counterexample :
    (abort_request stAbort respAbort "z").1 = .ok .NO_OP ∧
    abortAnswers stAbort respAbort (iter_replica_model_uid "z" 2) =
      [.NOT_FOUND, .NO_OP] ∧
    abortClaimResult [.NOT_FOUND, .NO_OP] = .NOT_FOUND ∧
    AbortToken.NO_OP ≠ .NOT_FOUND := by decide

/-- C1 as amended: the walk visits replicas in index order, skipping
unbound ones; the first `DONE` wins and is returned; otherwise the answer
of the *last replica contacted* is returned — whatever token it is,
`NO_OP` included — and `NO_OP` when no replica was contacted. -/
theorem abort_request_amended (st : SupState) (resp : RepKey → AbortToken)
    (uid : String) (info : ReplicaInfo)
    (h1 : alookup st.model_uid_to_replica_info uid = some info)
    (h2 : ∀ k ∈ iter_replica_model_uid uid info.replica,
      Option.all (fun refs => refs.first.isSome)
        (alookup st.replica_model_uid_to_worker k) = true) :
    (abort_request st resp uid).1 =
      .ok (if .DONE ∈
             abortAnswers st resp (iter_replica_model_uid uid info.replica)
           then .DONE
           else ((abortAnswers st resp
             (iter_replica_model_uid uid info.replica)).getLast?).getD
               .NO_OP) := by
  simp only [abort_request, h1]
  exact abortWalk_result st resp (iter_replica_model_uid uid info.replica) h2
    .NO_OP

/-- Witness for C1 (amended): at the concrete two-replica state the result
is the last contacted replica's answer, `NO_OP`. -/
theorem abort_request_amended_witness :
    (abort_request stAbort respAbort "z").1 =
      .ok (if .DONE ∈
             abortAnswers stAbort respAbort (iter_replica_model_uid "z" 2)
           then .DONE
           else ((abortAnswers stAbort respAbort
             (iter_replica_model_uid "z" 2)).getLast?).getD .NO_OP) :=
  abort_request_amended stAbort respAbort "z"
    { replica := 2, scheduler := 0, replica_to_worker_refs := [] }
    (by decide) (by decide)

/-! ### C10 — abort on an unknown uid vs the NotFound-raising operations -/

/-- A supervisor state with nothing registered. -/
def stEmpty : SupState :=
  { worker_address_to_worker := []
    worker_status := []
    replica_model_uid_to_worker := []
    model_uid_to_replica_info := []
    collective_manager_mapping := []
    block_tracker_mapping := []
    instance_info_status := [] }

/-- C10: for a uid with no ReplicaInfo, `abort_request` neither raises nor
contacts any worker — it returns the `NO_OP` message with an empty RPC
trace — whereas `get_model`, `describe_model`, `terminate_model` and
`cancel_launch_builtin_model` all raise their not-found errors. -/
theorem abort_request_unknown_uid (st : SupState)
    (resp : RepKey → AbortToken) (uid : String)
    (h : alookup st.model_uid_to_replica_info uid = none) :
    abort_request st resp uid = (.ok .NO_OP, []) ∧
    (get_model st uid).1 =
      .error (.valueError ("Model not found in the model list, uid: " ++ uid)) ∧
    describe_model st uid =
      .error (.valueError ("Model not found in the model list, uid: " ++ uid)) ∧
    (∀ (env : RepKey → String → Bool) (suppress : Bool),
      (terminate_model st env uid suppress).1 =
        some (.valueError ("Model not found in the model list, uid: " ++ uid))) ∧
    (cancel_launch_builtin_model st uid).1 =
      .error (.runtimeError ("Model " ++ uid ++ " has not been launched yet")) := by
  refine ⟨?_, ?_, ?_, ?_, ?_⟩
  · simp [abort_request, h]
  · simp [get_model, h]
  · simp [describe_model, h]
  · intro env suppress
    simp [terminate_model, h]
  · simp [cancel_launch_builtin_model, h]

/-- Witness for C10: the unknown-uid behaviour at the empty state. -/
theorem abort_request_unknown_uid_witness :
    abort_request stEmpty respAbort "ghost" = (.ok .NO_OP, []) :=
  (abort_request_unknown_uid stEmpty respAbort "ghost" (by decide)).1

/-! ### C2 — terminate_model with suppress_exception on a missing uid -/

/-- C2 counterexample: `terminate_model` on an unregistered uid raises the
not-found `ValueError` even though `suppress_exception=True` — it does not
return normally. -/
theorem terminate_model_suppress_counterexample :
    (terminate_model stEmpty (fun _ _ => true) "m" true).1 =
      some (.valueError "Model not found in the model list, uid: m") := by
  decide

theorem terminate_one_model_mui (st : SupState)
    (env : RepKey → String → Bool) (k : RepKey) :
    (terminate_one_model st env k).2.1.model_uid_to_replica_info =
      st.model_uid_to_replica_info := by
  unfold terminate_one_model
  cases hb : alookup st.replica_model_uid_to_worker k with
  | none =>
    dsimp only
    rcases hl : termLoop env k [none] with ⟨r, evts⟩
    cases r <;> simp [hl]
  | some rs =>
    dsimp only
    rcases hl : termLoop env k (rs.toList.map some) with ⟨r, evts⟩
    cases r <;> simp [hl]

theorem terminateAllReplicas_mui (env : RepKey → String → Bool)
    (suppress : Bool) :
    ∀ (ks : List RepKey) (st : SupState),
      (terminateAllReplicas env suppress ks st).2.1.model_uid_to_replica_info
        = st.model_uid_to_replica_info := by
  intro ks
  induction ks with
  | nil => intro st; rfl
  | cons k rest ih =>
    intro st
    have hmui := terminate_one_model_mui st env k
    unfold terminateAllReplicas
    rcases hh : terminate_one_model st env k with ⟨r, st', evts⟩
    rw [hh] at hmui
    cases r with
    | none =>
      dsimp only
      rw [ih st']
      exact hmui
    | some e =>
      cases suppress with
      | true =>
        simp only [if_true]
        rw [ih st']
        exact hmui
      | false =>
        simpa using hmui

theorem clearAux_mui (st : SupState) (uid : String) :
    (clearAux st uid).model_uid_to_replica_info =
      st.model_uid_to_replica_info := rfl

/-- C2 as amended: the ReplicaInfo lookup at the top of `terminate_model`
raises `ModelNotFound` unconditionally — `suppress_exception` guards only
the per-replica RPC loop — so a uid absent from the registry always raises,
and since a successful `terminate_model` removes the uid, the second of two
calls raises rather than returning normally. -/
theorem terminate_model_missing_raises :
    (∀ (st : SupState) (env : RepKey → String → Bool) (uid : String)
        (suppress : Bool),
      alookup st.model_uid_to_replica_info uid = none →
      terminate_model st env uid suppress =
        (some (.valueError ("Model not found in the model list, uid: " ++ uid)),
         st, [])) ∧
    (∀ (st : SupState) (env : RepKey → String → Bool) (uid : String)
        (suppress : Bool) (st2 : SupState) (evts : List RpcEvent),
      terminate_model st env uid suppress = (none, st2, evts) →
      (terminate_model st2 env uid true).1 =
        some (.valueError
          ("Model not found in the model list, uid: " ++ uid))) := by
  constructor
  · intro st env uid suppress h
    simp [terminate_model, h]
  · intro st env uid suppress st2 evts h
    have habs : alookup st2.model_uid_to_replica_info uid = none := by
      unfold terminate_model at h
      cases hl : alookup st.model_uid_to_replica_info uid with
      | none => rw [hl] at h; simp at h
      | some info =>
        rw [hl] at h
        dsimp only at h
        rcases ht : terminateAllReplicas env suppress
            (iter_replica_model_uid uid info.replica) st with ⟨e, st1, evts1⟩
        rw [ht] at h
        have hmui1 : st1.model_uid_to_replica_info =
            st.model_uid_to_replica_info := by
          have hx := terminateAllReplicas_mui env suppress
            (iter_replica_model_uid uid info.replica) st
          rw [ht] at hx
          exact hx
        cases e with
        | some err => simp at h
        | none =>
          dsimp only at h
          cases hr : alookup st1.replica_model_uid_to_worker
              (.rank0 uid) with
          | none =>
            rw [hr] at h
            dsimp only at h
            simp only [Prod.mk.injEq] at h
            obtain ⟨hst2, -⟩ := h.2
            rw [← hst2, clearAux_mui]
            show alookup (aerase st1.model_uid_to_replica_info uid) uid = none
            rw [alookup_aerase]
            simp
          | some w =>
            rw [hr] at h
            dsimp only at h
            rcases h2 : terminate_one_model
                { st1 with
                  model_uid_to_replica_info :=
                    aerase st1.model_uid_to_replica_info uid }
                env (.rank0 uid) with ⟨r2, st3, evts2⟩
            rw [h2] at h
            have hmui3 := terminate_one_model_mui
              { st1 with
                model_uid_to_replica_info :=
                  aerase st1.model_uid_to_replica_info uid }
              env (.rank0 uid)
            rw [h2] at hmui3
            cases r2 with
            | some err => simp at h
            | none =>
              dsimp only at h
              simp only [Prod.mk.injEq] at h
              obtain ⟨hst2, -⟩ := h.2
              rw [← hst2, clearAux_mui, hmui3]
              show alookup (aerase st1.model_uid_to_replica_info uid) uid = none
              rw [alookup_aerase]
              simp
    simp [terminate_model, habs]

/-- Witness for C2 (amended): the missing-uid branch applied at the empty
state with `suppress_exception=True`. -/
theorem terminate_model_missing_raises_witness :
    terminate_model stEmpty (fun _ _ => true) "m" true =
      (some (.valueError "Model not found in the model list, uid: m"),
       stEmpty, []) :=
  terminate_model_missing_raises.1 stEmpty (fun _ _ => true) "m" true
    (by decide)

/-! ### C3 — exceptions in the health-monitor sweep -/

/-- Whether a binding key is of the parseable replica form. -/
def RepKey.isRep : RepKey → Bool
  | .rep _ _ => true
  | .rank0 _ => false

/-- Sweep configuration used by the concrete health-monitor scenarios. -/
def confSweep : HealthConf := { timeout := 5, threshold := 3 }

/-- Concrete state for the C3 counterexample: worker "W" is one stale tick
from eviction and holds the synthetic rank-0 binding of model "m" (the
state a collective launch leaves behind). -/
def stSweepRank0 : SupState :=
  { worker_address_to_worker := ["W"]
    worker_status :=
      [("W", { update_time := 0, failure_remaining_count := 1, status := 0 })]
    replica_model_uid_to_worker := [(.rank0 "m", .single "W")]
    model_uid_to_replica_info := []
    collective_manager_mapping := ["m"]
    block_tracker_mapping := ["m"]
    instance_info_status := [] }

/-- C3 counterexample: at `stSweepRank0` the sweep body raises (the
rank-0 uid does not parse back to a replica uid) and the iteration ends in
`dead` — the `try/finally` has no `except` clause, so the exception
propagates after the sleep and the monitor loop terminates instead of
staying alive as the claim asserts. -/
theorem check_dead_nodes_dies :
    check_dead_nodes_iter confSweep 100 stSweepRank0 =
      .dead (.valueError "cannot parse replica model uid") := by decide

theorem mem_deadModelsFor (st : SupState) (addr : String) (k : RepKey) :
    k ∈ deadModelsFor st addr ↔
      ∃ refs, (k, refs) ∈ st.replica_model_uid_to_worker ∧
        addr ∈ refs.toList := by
  unfold deadModelsFor
  rw [List.mem_flatten]
  constructor
  · rintro ⟨l, hl, hkl⟩
    rw [List.mem_map] at hl
    obtain ⟨p, hp, rfl⟩ := hl
    rw [List.mem_map] at hkl
    obtain ⟨x, hx, rfl⟩ := hkl
    rw [List.mem_filter] at hx
    refine ⟨p.2, by simpa using hp, ?_⟩
    have hxa := hx.2
    simp only [decide_eq_true_eq] at hxa
    rw [← hxa]
    exact hx.1
  · rintro ⟨refs, hmem, haddr⟩
    refine ⟨(refs.toList.filter (fun a => decide (a = addr))).map
      (fun _ => k), ?_, ?_⟩
    · rw [List.mem_map]
      exact ⟨(k, refs), hmem, rfl⟩
    · rw [List.mem_map]
      refine ⟨addr, ?_, rfl⟩
      rw [List.mem_filter]
      exact ⟨haddr, by simp⟩

theorem purgeAll_ok : ∀ (ks : List RepKey) (st : SupState),
    (∀ k ∈ ks, k.isRep = true) →
    ∃ st', purgeAll st ks = .ok st' ∧
      st'.replica_model_uid_to_worker =
        ks.foldl aerase st.replica_model_uid_to_worker ∧
      st'.worker_status = st.worker_status ∧
      st'.worker_address_to_worker = st.worker_address_to_worker := by
  intro ks
  induction ks with
  | nil => intro st _; exact ⟨st, rfl, rfl, rfl, rfl⟩
  | cons k rest ih =>
    intro st hall
    cases k with
    | rank0 u => simpa [RepKey.isRep] using hall (.rank0 u) (List.mem_cons_self _ _)
    | rep u i =>
      obtain ⟨st', hok, hb, hs, hw⟩ := ih
        { st with
          model_uid_to_replica_info := aerase st.model_uid_to_replica_info u,
          replica_model_uid_to_worker :=
            aerase st.replica_model_uid_to_worker (.rep u i) }
        (fun x hx => hall x (List.mem_cons_of_mem _ hx))
      exact ⟨st', hok, by simpa using hb, hs, hw⟩

theorem sweepFold_ok (conf : HealthConf) (now : Nat) :
    ∀ (entries : List (String × WorkerStatus)) (st : SupState)
      (dead : List String),
      (∀ p ∈ st.replica_model_uid_to_worker, p.1.isRep = true) →
      ∃ st' dead', sweepFold conf now entries (st, dead) = .ok (st', dead') ∧
        (∀ p ∈ st'.replica_model_uid_to_worker, p.1.isRep = true) := by
  intro entries
  induction entries with
  | nil => intro st dead h; exact ⟨st, dead, rfl, h⟩
  | cons e rest ih =>
    intro st dead h
    obtain ⟨addr, ws⟩ := e
    have hbump : ∀ p ∈ (bumpStatus conf now st addr ws).replica_model_uid_to_worker, p.1.isRep = true := h
    by_cases hc : (ageStatus conf now ws).failure_remaining_count ≤ 0
    · have hdm : ∀ k ∈ deadModelsFor (bumpStatus conf now st addr ws) addr,
          k.isRep = true := by
        intro k hk
        obtain ⟨refs, hmem, -⟩ := (mem_deadModelsFor _ addr k).1 hk
        exact hbump (k, refs) hmem
      obtain ⟨stP, hok, hbP, -, -⟩ :=
        purgeAll_ok _ (bumpStatus conf now st addr ws) hdm
      have hP : ∀ p ∈ stP.replica_model_uid_to_worker, p.1.isRep = true := by
        intro p hp
        rw [hbP, mem_foldl_aerase] at hp
        exact hbump p hp.1
      obtain ⟨st', dead', hfold, hrep⟩ := ih stP (dead ++ [addr]) hP
      refine ⟨st', dead', ?_, hrep⟩
      have hstep : sweepStep conf now (st, dead) (addr, ws) =
          .ok (stP, dead ++ [addr]) := by
        unfold sweepStep
        dsimp only
        rw [if_pos hc, hok]
        rfl
      have hunfold : sweepFold conf now ((addr, ws) :: rest) (st, dead) =
          (sweepStep conf now (st, dead) (addr, ws)) >>=
            sweepFold conf now rest := rfl
      rw [hunfold, hstep]
      exact hfold
    · obtain ⟨st', dead', hfold, hrep⟩ :=
        ih (bumpStatus conf now st addr ws) dead hbump
      refine ⟨st', dead', ?_, hrep⟩
      have hstep : sweepStep conf now (st, dead) (addr, ws) =
          .ok (bumpStatus conf now st addr ws, dead) := by
        unfold sweepStep
        dsimp only
        rw [if_neg hc]
      have hunfold : sweepFold conf now ((addr, ws) :: rest) (st, dead) =
          (sweepStep conf now (st, dead) (addr, ws)) >>=
            sweepFold conf now rest := rfl
      rw [hunfold, hstep]
      exact hfold

/-- C3 as amended: an exception in the sweep body is *not* swallowed —
the `finally` clause only guarantees the sleep, after which the exception
propagates and the monitor loop terminates (`dead` exactly when the body
raises).  The body itself raises only when a dead worker holds a binding
that is not of replica form (the synthetic rank-0 uid); on states whose
binding keys are all replica-form, every sweep completes and the loop
stays alive. -/
theorem check_dead_nodes_exception (conf : HealthConf) (now : Nat)
    (st : SupState) :
    (∀ e, check_dead_nodes_iter conf now st = .dead e ↔
      check_dead_nodes_body conf now st = .error e) ∧
    ((∀ p ∈ st.replica_model_uid_to_worker, p.1.isRep = true) →
      ∃ st', check_dead_nodes_iter conf now st = .alive st') := by
  constructor
  · intro e
    unfold check_dead_nodes_iter
    cases hb : check_dead_nodes_body conf now st <;> simp
  · intro h
    obtain ⟨st', dead', hfold, -⟩ :=
      sweepFold_ok conf now st.worker_status st [] h
    have hbody : ∃ stf, check_dead_nodes_body conf now st = .ok stf := by
      unfold check_dead_nodes_body
      rw [hfold]
      exact ⟨_, rfl⟩
    obtain ⟨stf, hbf⟩ := hbody
    refine ⟨stf, ?_⟩
    unfold check_dead_nodes_iter
    rw [hbf]

/-- Concrete rank0-free state: worker "W" one stale tick from eviction,
hosting replica 0 of model "x". -/
def stSweepRep : SupState :=
  { worker_address_to_worker := ["W"]
    worker_status :=
      [("W", { update_time := 0, failure_remaining_count := 1, status := 0 })]
    replica_model_uid_to_worker := [(.rep "x" 0, .single "W")]
    model_uid_to_replica_info :=
      [("x", { replica := 1, scheduler := 0, replica_to_worker_refs := [] })]
    collective_manager_mapping := []
    block_tracker_mapping := []
    instance_info_status := [] }

/-- Witness for C3 (amended): on the rank0-free concrete state the sweep
completes and the loop stays alive. -/
theorem check_dead_nodes_exception_witness :
    ∃ st', check_dead_nodes_iter confSweep 100 stSweepRep = .alive st' :=
  (check_dead_nodes_exception confSweep 100 stSweepRep).2 (by decide)

/-! ### C5 — bindings after eviction / remove_worker -/

/-- Concrete state for C5: model "x" with replica 0 on worker "A" and
replica 1 on worker "B". -/
def stTwoReplica : SupState :=
  { worker_address_to_worker := ["A", "B"]
    worker_status := []
    replica_model_uid_to_worker :=
      [(.rep "x" 0, .single "A"), (.rep "x" 1, .single "B")]
    model_uid_to_replica_info :=
      [("x", { replica := 2, scheduler := 0, replica_to_worker_refs := [] })]
    collective_manager_mapping := []
    block_tracker_mapping := []
    instance_info_status := [] }

/-- C5 counterexample: `remove_worker("B")` deletes model "x"'s whole
ReplicaInfo but only replica 1's binding — replica 0's binding on the
surviving worker "A" stays behind as an orphan, so not every remaining
binding belongs to a model with a live ReplicaInfo. -/
theorem remove_worker_orphan :
    (remove_worker stTwoReplica "B").map
        (fun st' => (alookup st'.replica_model_uid_to_worker (.rep "x" 0),
                     alookup st'.model_uid_to_replica_info "x")) =
      .ok (some (.single "A"), none) := by decide

theorem purgeAll_bindings : ∀ (ks : List RepKey) (st st' : SupState),
    purgeAll st ks = .ok st' →
    st'.replica_model_uid_to_worker =
      ks.foldl aerase st.replica_model_uid_to_worker ∧
    st'.worker_status = st.worker_status ∧
    st'.worker_address_to_worker = st.worker_address_to_worker := by
  intro ks
  induction ks with
  | nil =>
    intro st st' h
    obtain rfl := Except.ok.inj h
    exact ⟨rfl, rfl, rfl⟩
  | cons k rest ih =>
    intro st st' h
    cases k with
    | rank0 u =>
      change Except.error (SupErr.valueError "cannot parse replica model uid") =
        Except.ok st' at h
      exact Except.noConfusion h
    | rep u i =>
      have h' : purgeAll { st with model_uid_to_replica_info := aerase st.model_uid_to_replica_info u, replica_model_uid_to_worker := aerase st.replica_model_uid_to_worker (.rep u i) } rest = .ok st' := h
      obtain ⟨hb, hs, hw⟩ := ih _ st' h'
      exact ⟨by simpa using hb, hs, hw⟩

/-- No binding of `st` pointing at `a` survives in `st`. -/
def noRefs (st : SupState) (a : String) : Prop :=
  ∀ p ∈ st.replica_model_uid_to_worker, a ∉ p.2.toList

theorem purgeAll_noRefs (st st1 : SupState) (addr : String)
    (hp : purgeAll st (deadModelsFor st addr) = .ok st1) :
    noRefs st1 addr := by
  obtain ⟨hb, -, -⟩ := purgeAll_bindings _ st st1 hp
  intro p hp2 hmem
  rw [hb, mem_foldl_aerase] at hp2
  exact hp2.2 ((mem_deadModelsFor st addr p.1).2 ⟨p.2, hp2.1, hmem⟩)

theorem sweepFold_noRefs (conf : HealthConf) (now : Nat) :
    ∀ (entries : List (String × WorkerStatus)) (st : SupState)
      (dead : List String) (st' : SupState) (dead' : List String),
      sweepFold conf now entries (st, dead) = .ok (st', dead') →
      (∀ a ∈ dead, noRefs st a) →
      (∀ a ∈ dead', noRefs st' a) ∧
      (∀ a, (alookup st.worker_status a).isSome →
        (alookup st'.worker_status a).isSome) ∧
      (∀ p ∈ st'.replica_model_uid_to_worker,
        p ∈ st.replica_model_uid_to_worker) := by
  intro entries
  induction entries with
  | nil =>
    intro st dead st' dead' h hdead
    obtain ⟨h1, h2⟩ := Prod.mk.injEq .. ▸ Except.ok.inj h
    subst h1
    subst h2
    exact ⟨hdead, fun a ha => ha, fun p hp => hp⟩
  | cons e rest ih =>
    intro st dead st' dead' h hdead
    obtain ⟨addr, ws⟩ := e
    have hunfold : sweepFold conf now ((addr, ws) :: rest) (st, dead) =
        (sweepStep conf now (st, dead) (addr, ws)) >>=
          sweepFold conf now rest := rfl
    rw [hunfold] at h
    by_cases hc : (ageStatus conf now ws).failure_remaining_count ≤ 0
    · cases hp : purgeAll (bumpStatus conf now st addr ws)
          (deadModelsFor (bumpStatus conf now st addr ws) addr) with
      | error e2 =>
        have hstep : sweepStep conf now (st, dead) (addr, ws) = .error e2 := by
          unfold sweepStep
          dsimp only
          rw [if_pos hc, hp]
          rfl
        rw [hstep] at h
        change Except.error e2 = Except.ok (st', dead') at h
        exact Except.noConfusion h
      | ok stP =>
        have hstep : sweepStep conf now (st, dead) (addr, ws) =
            .ok (stP, dead ++ [addr]) := by
          unfold sweepStep
          dsimp only
          rw [if_pos hc, hp]
          rfl
        rw [hstep] at h
        obtain ⟨hbP, hsP, -⟩ :=
          purgeAll_bindings _ (bumpStatus conf now st addr ws) stP hp
        have hsubP : ∀ p ∈ stP.replica_model_uid_to_worker,
            p ∈ st.replica_model_uid_to_worker := by
          intro p hp2
          rw [hbP, mem_foldl_aerase] at hp2
          exact hp2.1
        have hdeadP : ∀ a ∈ dead ++ [addr], noRefs stP a := by
          intro a ha
          rcases List.mem_append.1 ha with ha | ha
          · intro p hp2 hmem
            exact hdead a ha p (hsubP p hp2) hmem
          · have haeq : a = addr := by simpa using ha
            subst haeq
            exact purgeAll_noRefs _ stP _ hp
        obtain ⟨h1, h2, h3⟩ := ih stP (dead ++ [addr]) st' dead' h hdeadP
        refine ⟨h1, ?_, fun p hp2 => hsubP p (h3 p hp2)⟩
        intro a ha
        apply h2
        rw [hsP]
        show (alookup (aupsert st.worker_status addr
          (ageStatus conf now ws)) a).isSome
        rw [alookup_aupsert]
        by_cases haddr : addr = a
        · simp [haddr]
        · simpa [haddr] using ha
    · have hstep : sweepStep conf now (st, dead) (addr, ws) =
          .ok (bumpStatus conf now st addr ws, dead) := by
        unfold sweepStep
        dsimp only
        rw [if_neg hc]
      rw [hstep] at h
      have hdeadB : ∀ a ∈ dead, noRefs (bumpStatus conf now st addr ws) a :=
        fun a ha => hdead a ha
      obtain ⟨h1, h2, h3⟩ :=
        ih (bumpStatus conf now st addr ws) dead st' dead' h hdeadB
      refine ⟨h1, ?_, h3⟩
      intro a ha
      apply h2
      show (alookup (aupsert st.worker_status addr
        (ageStatus conf now ws)) a).isSome
      rw [alookup_aupsert]
      by_cases haddr : addr = a
      · simp [haddr]
      · simpa [haddr] using ha

/-- C5 as amended: after `remove_worker(addr)` no remaining binding
references `addr` and `addr` is gone from the registry; after a completed
health sweep no remaining binding references an evicted worker (one whose
status entry disappeared).  However — per the counterexample — bindings of
a purged model's *sibling* replicas on surviving workers do remain behind
as orphans, so the claim's "every remaining binding has a live ReplicaInfo"
does not hold. -/
theorem no_dangling_after_removal :
    (∀ (st : SupState) (addr : String) (st' : SupState),
      remove_worker st addr = .ok st' →
      (∀ p ∈ st'.replica_model_uid_to_worker, addr ∉ p.2.toList) ∧
      addr ∉ st'.worker_address_to_worker) ∧
    (∀ (conf : HealthConf) (now : Nat) (st st' : SupState),
      check_dead_nodes_body conf now st = .ok st' →
      ∀ a, (alookup st.worker_status a).isSome →
        alookup st'.worker_status a = none →
        ∀ p ∈ st'.replica_model_uid_to_worker, a ∉ p.2.toList) := by
  constructor
  · intro st addr st' h
    unfold remove_worker at h
    cases hp : purgeAll st (deadModelsFor st addr) with
    | error e =>
      rw [hp] at h
      change Except.error e = Except.ok st' at h
      exact Except.noConfusion h
    | ok st1 =>
      rw [hp] at h
      change Except.ok { st1 with worker_address_to_worker := st1.worker_address_to_worker.filter (fun x => decide (x ≠ addr)) } = Except.ok st' at h
      have hst' := (Except.ok.inj h).symm
      subst hst'
      obtain ⟨hb, -, -⟩ := purgeAll_bindings _ st st1 hp
      constructor
      · intro p hp2 hmem
        have hmem1 : p ∈ st1.replica_model_uid_to_worker := hp2
        rw [hb, mem_foldl_aerase] at hmem1
        exact hmem1.2
          ((mem_deadModelsFor st addr p.1).2 ⟨p.2, hmem1.1, hmem⟩)
      · intro hmem
        rw [List.mem_filter] at hmem
        simp at hmem
  · intro conf now st st' hbody a hsome hnone p hp hmem
    unfold check_dead_nodes_body at hbody
    cases hf : sweepFold conf now st.worker_status (st, []) with
    | error e =>
      rw [hf] at hbody
      change Except.error e = Except.ok st' at hbody
      exact Except.noConfusion hbody
    | ok acc =>
      obtain ⟨st1, dead⟩ := acc
      rw [hf] at hbody
      change Except.ok { st1 with worker_status := dead.foldl aerase st1.worker_status, worker_address_to_worker := dead.foldl (fun l b => l.filter (fun x => decide (x ≠ b))) st1.worker_address_to_worker } = Except.ok st' at hbody
      have hst' := (Except.ok.inj hbody).symm
      subst hst'
      obtain ⟨hdead, hstat, -⟩ :=
        sweepFold_noRefs conf now st.worker_status st [] st1 dead hf
          (by simp)
      have hsome1 : (alookup st1.worker_status a).isSome := hstat a hsome
      have hain : a ∈ dead := by
        by_contra hna
        have : alookup (dead.foldl aerase st1.worker_status) a =
            alookup st1.worker_status a := by
          rw [alookup_foldl_aerase, if_neg hna]
        rw [hnone] at this
        rw [← this] at hsome1
        simp at hsome1
      exact hdead a hain p hp hmem

/-- The state `remove_worker stTwoReplica "B"` produces: ReplicaInfo gone,
replica 0's binding orphaned on "A". -/
def stOrphan : SupState :=
  { worker_address_to_worker := ["A"]
    worker_status := []
    replica_model_uid_to_worker := [(.rep "x" 0, .single "A")]
    model_uid_to_replica_info := []
    collective_manager_mapping := []
    block_tracker_mapping := []
    instance_info_status := [] }

/-- Witness for C5 (amended): the remove_worker half applied at the
concrete two-replica state. -/
theorem no_dangling_after_removal_witness :
    (∀ p ∈ stOrphan.replica_model_uid_to_worker, "B" ∉ p.2.toList) ∧
    "B" ∉ stOrphan.worker_address_to_worker :=
  no_dangling_after_removal.1 stTwoReplica "B" stOrphan (by decide)

/-! ### C8 — launch validation and its atomicity -/

/-- C8: with a well-formed uid, `request_limits = 0` passes validation —
the launch proceeds to insert the fresh ReplicaInfo (cursor at 0) and
publish CREATING — while `request_limits = -1` raises the validation error
with the state untouched; and a duplicate uid raises with the state, in
particular the original ReplicaInfo entry, untouched — the duplicate check
precedes the insert. -/
theorem launch_validate_contract :
    (∀ (st : SupState) (uid : String) (replica : Nat),
      is_valid_model_uid uid = true →
      alookup st.model_uid_to_replica_info uid = none →
      ∃ st', launch_builtin_model_validate st uid replica (some 0) =
          (.ok uid, st') ∧
        alookup st'.model_uid_to_replica_info uid =
          some { replica := replica, scheduler := 0,
                 replica_to_worker_refs := [] } ∧
        alookup st'.instance_info_status uid = some .CREATING) ∧
    (∀ (st : SupState) (uid : String) (replica : Nat),
      is_valid_model_uid uid = true →
      launch_builtin_model_validate st uid replica (some (-1)) =
        (.error (.valueError
          "The `request_limits` parameter must be greater or equal than 0."),
         st)) ∧
    (∀ (st : SupState) (uid : String) (replica : Nat)
        (rl : Option Int) (info : ReplicaInfo),
      is_valid_model_uid uid = true →
      (∀ v, rl = some v → 0 ≤ v) →
      alookup st.model_uid_to_replica_info uid = some info →
      launch_builtin_model_validate st uid replica rl =
        (.error (.valueError
          ("Model is already in the model list, uid: " ++ uid)), st)) := by
  refine ⟨?_, ?_, ?_⟩
  · intro st uid replica hval hnone
    refine ⟨{ st with model_uid_to_replica_info := aupsert st.model_uid_to_replica_info uid { replica := replica, scheduler := 0, replica_to_worker_refs := [] }, instance_info_status := aupsert st.instance_info_status uid .CREATING }, ?_, ?_, ?_⟩
    · unfold launch_builtin_model_validate
      rw [if_neg (by simp [hval]), if_neg (by decide),
        if_neg (by simp [hnone])]
    · show alookup (aupsert st.model_uid_to_replica_info uid { replica := replica, scheduler := 0, replica_to_worker_refs := [] }) uid = _
      rw [alookup_aupsert]
      simp
    · show alookup (aupsert st.instance_info_status uid .CREATING) uid = _
      rw [alookup_aupsert]
      simp
  · intro st uid replica hval
    unfold launch_builtin_model_validate
    rw [if_neg (by simp [hval]), if_pos (by decide)]
  · intro st uid replica rl info hval hrl hsome
    unfold launch_builtin_model_validate
    have hcond : negativeRequestLimits rl = false := by
      cases rl with
      | none => rfl
      | some v =>
        have h0 := hrl v rfl
        unfold negativeRequestLimits
        simp only [decide_eq_false_iff_not]
        omega
    rw [if_neg (by simp [hval]), if_neg (by simp [hcond]),
      if_pos (by simp [hsome])]

/-- Concrete state for the C8 witness: model "alpha" already launched. -/
def stAlpha : SupState :=
  { worker_address_to_worker := ["A"]
    worker_status := []
    replica_model_uid_to_worker := [(.rep "alpha" 0, .single "A")]
    model_uid_to_replica_info :=
      [("alpha",
        { replica := 1, scheduler := 0, replica_to_worker_refs := [] })]
    collective_manager_mapping := []
    block_tracker_mapping := []
    instance_info_status := [("alpha", .READY)] }

/-- Witness for C8: a second launch of "alpha" fails with the duplicate
error and the state — the original ReplicaInfo included — is unchanged. -/
theorem launch_validate_contract_witness :
    launch_builtin_model_validate stAlpha "alpha" 1 none =
      (.error (.valueError "Model is already in the model list, uid: alpha"),
       stAlpha) :=
  launch_validate_contract.2.2 stAlpha "alpha" 1 none
    { replica := 1, scheduler := 0, replica_to_worker_refs := [] }
    (by decide) (fun v hv => Option.noConfusion hv) (by decide)

/-! ### C4 — sharded launch rollback -/

/-- Two registered workers, nothing launched: the starting state of the
S2 scenario. -/
def stC4 : SupState :=
  { worker_address_to_worker := ["A", "B"]
    worker_status := []
    replica_model_uid_to_worker := []
    model_uid_to_replica_info := []
    collective_manager_mapping := []
    block_tracker_mapping := []
    instance_info_status := [] }

/-- The S2 environment: no registrations (all workers are candidates);
model counts make `_choose_worker` pick "A" for shard 0 and "B" for shard
1; shard-0 launches succeed, any later shard's launch throws; terminate
RPCs would succeed if issued. -/
def envC4 : ShardedEnv :=
  { registration := fun _ => false
    counts := fun c a => if c = 0 then 0 else (if a = "A" then 1 else 0)
    launchOk := fun _ s _ => s = 0
    driverInfo := fun _ _ => some "drv"
    waitOk := fun _ _ => true
    terminateOk := fun _ _ => true
    freshSuffix := "r4nd0m00" }

/-- The S2 run: `launch(n_worker=2, replica=1)` where shard 0 lands on
worker A and worker B throws on `launch_builtin_model`. -/
def shardedRollbackRun : Except SupErr String × SupState × List RpcEvent :=
  launch_builtin_sharded_model stC4 envC4 (some "m") "nm" 1 2 none none

/-- C4 counterexample: in the S2 scenario the trace shows shard 0 launched
on A and shard 1 attempted on B, yet the rollback issues *no*
`terminate_model` RPC at all — `terminate_model` reads
`_replica_model_uid_to_worker`, which the sharded launch only writes after
every shard has launched, so the lookup misses and worker A keeps its
orphaned shard, contrary to the claim. -/
theorem sharded_rollback_no_terminate :
    shardedRollbackRun.2.2 =
      [.launchBuiltinModel "A" (.rep "m" 0) 0,
       .launchBuiltinModel "B" (.rep "m" 0) 1] ∧
    RpcEvent.terminateModelRpc "A" (.rep "m" 0) ∉ shardedRollbackRun.2.2 := by
  decide

/-- C4 as amended: the S2 scenario re-raises the worker error and its final
state has no ReplicaInfo for the uid, no replica→worker binding,
InstanceInfo.status = ERROR — but worker A receives no `terminate_model`
call, because the per-slot bindings recorded before the RPC live in
`ReplicaInfo.replica_to_worker_refs`, which the Termination Coordinator
never consults. -/
theorem sharded_rollback_amended :
    shardedRollbackRun.1 = .error .workerError ∧
    alookup shardedRollbackRun.2.1.model_uid_to_replica_info "m" = none ∧
    alookup shardedRollbackRun.2.1.replica_model_uid_to_worker
      (.rep "m" 0) = none ∧
    alookup shardedRollbackRun.2.1.instance_info_status "m" = some .ERROR ∧
    shardedRollbackRun.2.2.all
      (fun e => match e with
        | .terminateModelRpc _ _ => false
        | _ => true) = true := by decide

end Supervisor
